import Mathlib

/-!
Shallow embedding of `src/near-bridge/spiralsafe-contract.rs` (SpiralSafeVortex,
NEAR smart contract).

Modelling conventions:
* `u64` counters and sums are modelled as `Nat`; `u8` values are `Nat` with the
  narrowing `as u8` casts of the source written explicitly as `% 256` (`asU8`).
* NEAR's `LookupMap`/`UnorderedMap` become functions `String → Option _`; the
  per-contributor `Vector<String>` becomes `List String`.
* A Rust `assert!` aborts the whole call and the NEAR runtime rolls every
  mutation of the call back; since in the source both asserts precede every
  mutation, an aborting call is modelled as `Except.error` carrying the panic
  message, and the host-level "failed call leaves state unchanged" semantics is
  made explicit by `applyOp`, which keeps the pre-state on error.
* Environment inputs (`env::predecessor_account_id`, `env::block_timestamp`,
  `env::block_height`) are passed as explicit arguments.
-/

namespace SpiralSafe

/-- The `as u8` narrowing cast of the source. -/
def asU8 (x : Nat) : Nat := x % 256

/-- `ATOMOnChain` record (source lines 17-29). -/
structure ATOMOnChain where
  atom_tag : String
  repo : String
  coherence_score : Nat
  phases_passed : List String
  markers : List String
  contributor : String
  timestamp : String
  commit_hash : String
  pr_number : Option Nat
deriving DecidableEq

/-- `VortexState` global aggregate (source lines 32-39). -/
structure VortexState where
  total_atoms : Nat
  average_coherence : Nat
  snap_in_count : Nat
  last_update : String
deriving DecidableEq

/-- `RepoState` per-repository aggregate (source lines 42-50). -/
structure RepoState where
  repo : String
  atom_count : Nat
  total_coherence : Nat
  average_coherence : Nat
  last_snap_in : Option String
deriving DecidableEq

/-- Contract state `SpiralSafeVortex` (source lines 53-71). -/
structure SpiralSafeVortex where
  atoms : String → Option ATOMOnChain
  repos : String → Option RepoState
  contributor_atoms : String → Option (List String)
  vortex_state : VortexState
  owner : String
  snap_in_threshold : Nat

/-- `SpiralSafeVortex::new` (source lines 75-90). -/
def new (owner : String) (ts0 : String) : SpiralSafeVortex where
  atoms := fun _ => none
  repos := fun _ => none
  contributor_atoms := fun _ => none
  vortex_state := { total_atoms := 0, average_coherence := 0, snap_in_count := 0,
                    last_update := ts0 }
  owner := owner
  snap_in_threshold := 70

/-- `update_repo_state` (source lines 243-262). -/
def update_repo_state (s : SpiralSafeVortex) (atom : ATOMOnChain) : SpiralSafeVortex :=
  let st0 := (s.repos atom.repo).getD
    { repo := atom.repo, atom_count := 0, total_coherence := 0,
      average_coherence := 0, last_snap_in := none }
  let st1 := { st0 with
    atom_count := st0.atom_count + 1,
    total_coherence := st0.total_coherence + atom.coherence_score }
  let st2 := { st1 with
    average_coherence := asU8 (st1.total_coherence / st1.atom_count) }
  let st3 := if s.snap_in_threshold ≤ atom.coherence_score
    then { st2 with last_snap_in := some atom.timestamp } else st2
  { s with repos := fun r => if r = atom.repo then some st3 else s.repos r }

/-- `add_to_contributor_trail` (source lines 264-272). -/
def add_to_contributor_trail (s : SpiralSafeVortex) (atom : ATOMOnChain) :
    SpiralSafeVortex :=
  let trail := (s.contributor_atoms atom.contributor).getD []
  { s with contributor_atoms := fun c =>
      if c = atom.contributor then some (trail ++ [atom.atom_tag])
      else s.contributor_atoms c }

/-- `update_vortex_state` (source lines 274-285); `ts` is `env::block_timestamp`. -/
def update_vortex_state (s : SpiralSafeVortex) (atom : ATOMOnChain) (ts : String) :
    SpiralSafeVortex :=
  let prev_total := s.vortex_state.total_atoms * s.vortex_state.average_coherence
  let new_total := s.vortex_state.total_atoms + 1
  let new_avg := (prev_total + atom.coherence_score) / new_total
  { s with vortex_state :=
    { total_atoms := new_total,
      average_coherence := asU8 new_avg,
      snap_in_count := s.vortex_state.snap_in_count,
      last_update := ts } }

/-- The mutation part of `record_atom` (source lines 101-121): everything the
call does after its two `assert!`s have passed. -/
def record_atom_apply (s : SpiralSafeVortex) (atom : ATOMOnChain) (ts : String) :
    SpiralSafeVortex :=
  let s1 := { s with atoms := fun t =>
    if t = atom.atom_tag then some atom else s.atoms t }
  let s2 := update_repo_state s1 atom
  let s3 := add_to_contributor_trail s2 atom
  let s4 := update_vortex_state s3 atom ts
  if s4.snap_in_threshold ≤ atom.coherence_score then
    { s4 with vortex_state :=
      { s4.vortex_state with snap_in_count := s4.vortex_state.snap_in_count + 1 } }
  else s4

/-- `record_atom` (source lines 96-125); `ts` is `env::block_timestamp`,
`height` is `env::block_height` used for the receipt. -/
def record_atom (s : SpiralSafeVortex) (atom : ATOMOnChain) (ts : String)
    (height : Nat) : Except String (SpiralSafeVortex × String) :=
  if 100 < atom.coherence_score then .error "Invalid coherence score"
  else if atom.atom_tag = "" then .error "ATOM tag required"
  else .ok (record_atom_apply s atom ts,
            toString height ++ ":" ++ atom.atom_tag)

/-- `batch_record_atoms` (source lines 129-134): `record_atom` applied in input
order; a panic anywhere aborts (and the host rolls back) the whole call. -/
def batch_record_atoms (s : SpiralSafeVortex) (l : List ATOMOnChain) (ts : String)
    (height : Nat) : Except String (SpiralSafeVortex × List String) :=
  match l with
  | [] => .ok (s, [])
  | atom :: rest =>
    match record_atom s atom ts height with
    | .error e => .error e
    | .ok (s2, r) =>
      match batch_record_atoms s2 rest ts height with
      | .error e => .error e
      | .ok (s3, rs) => .ok (s3, r :: rs)

/-- `update_coherence` (source lines 137-148); `caller` is
`env::predecessor_account_id`. -/
def update_coherence (s : SpiralSafeVortex) (caller : String) (repo : String)
    (coherence : Nat) : Except String SpiralSafeVortex :=
  if caller = s.owner then
    match s.repos repo with
    | some st => .ok { s with repos := fun r =>
        (if r = repo then some ({ st with average_coherence := coherence })
         else s.repos r) }
    | none => .ok s
  else .error "Only owner can update coherence directly"

/-- `set_snap_in_threshold` (source lines 151-159). -/
def set_snap_in_threshold (s : SpiralSafeVortex) (caller : String)
    (threshold : Nat) : Except String SpiralSafeVortex :=
  if caller = s.owner then
    if threshold ≤ 100 then .ok { s with snap_in_threshold := threshold }
    else .error "Invalid threshold"
  else .error "Only owner"

/-- `get_attribution` (source lines 216-239). -/
def get_attribution (s : SpiralSafeVortex) (contributor : String) :
    Nat × Nat × List String :=
  match s.contributor_atoms contributor with
  | some tags =>
    let atoms := tags.filterMap fun tag => s.atoms tag
    let count := atoms.length
    let avg := if 0 < count
      then asU8 ((atoms.map fun a => a.coherence_score).sum / count)
      else 0
    (count, avg, (atoms.map fun a => a.markers).flatten)
  | none => (0, 0, [])

/-- `check_ecosystem_snap_in` (source lines 210-213). -/
def check_ecosystem_snap_in (s : SpiralSafeVortex) : Bool × Nat :=
  (decide (s.snap_in_threshold ≤ s.vortex_state.average_coherence),
   s.vortex_state.average_coherence)

/-- The state-mutating calls of the contract, with their environment inputs. -/
inductive Op where
  | record : ATOMOnChain → String → Nat → Op
  | batch : List ATOMOnChain → String → Nat → Op
  | setThreshold : String → Nat → Op
  | override : String → String → Nat → Op

/-- Host-level semantics of one call: a panic (`Except.error`) rolls the whole
call back, leaving the state unchanged. -/
def applyOp (s : SpiralSafeVortex) : Op → SpiralSafeVortex
  | .record a ts h =>
    match record_atom s a ts h with
    | .ok (s2, _) => s2
    | .error _ => s
  | .batch l ts h =>
    match batch_record_atoms s l ts h with
    | .ok (s2, _) => s2
    | .error _ => s
  | .setThreshold caller v =>
    match set_snap_in_threshold s caller v with
    | .ok s2 => s2
    | .error _ => s
  | .override caller repo v =>
    match update_coherence s caller repo v with
    | .ok s2 => s2
    | .error _ => s

/-- Run a sequence of calls against the contract. -/
def run (s : SpiralSafeVortex) : List Op → SpiralSafeVortex
  | [] => s
  | op :: rest => run (applyOp s op) rest

/-- A state is reachable when some call sequence produces it from a freshly
constructed contract. -/
def Reachable (s : SpiralSafeVortex) : Prop :=
  ∃ owner ts0 ops, run (new owner ts0) ops = s

/-- Whether a call is the governance repo-average override. -/
def Op.isOverride : Op → Bool
  | .override _ _ _ => true
  | _ => false

/-- Whether a call submits (alone or in a batch) a record for repository `r`. -/
def Op.recordsRepo (r : String) : Op → Bool
  | .record a _ _ => a.repo == r
  | .batch l _ _ => l.any fun a => a.repo == r
  | _ => false

/-- Whether a call is a single record submission. -/
def Op.isRecord : Op → Bool
  | .record _ _ _ => true
  | _ => false

/-- Invariant of one repository aggregate entry: it was created by at least one
record, its sum is bounded by 100 per record, and its average is the floor
quotient of its stored sum and count. -/
def InvRepo (st : RepoState) : Prop :=
  0 < st.atom_count ∧ st.total_coherence ≤ 100 * st.atom_count
  ∧ st.average_coherence = st.total_coherence / st.atom_count

/-- State invariant maintained by every call except the governance override. -/
def Inv (s : SpiralSafeVortex) : Prop :=
  (∀ r st, s.repos r = some st → InvRepo st)
  ∧ s.vortex_state.average_coherence ≤ 100

/-- Modelled from the spec: how many snap-in events one call contributes — the
accepted individual record submissions of the call whose score meets the
snap-in threshold in effect at submission time (within a batch the threshold
is the one in effect when the batch started, since submissions do not change
it). -/
def opSnapEvents (s : SpiralSafeVortex) : Op → Nat
  | .record a ts h =>
    match record_atom s a ts h with
    | .ok _ => if s.snap_in_threshold ≤ a.coherence_score then 1 else 0
    | .error _ => 0
  | .batch l ts h =>
    match batch_record_atoms s l ts h with
    | .ok _ => l.countP fun a => decide (s.snap_in_threshold ≤ a.coherence_score)
    | .error _ => 0
  | .setThreshold _ _ => 0
  | .override _ _ _ => 0

/-- Modelled from the spec: the cumulative number of accepted record
submissions along a call trace whose score met the threshold in effect at the
moment of that submission. -/
def specSnapInEvents (s : SpiralSafeVortex) : List Op → Nat
  | [] => 0
  | op :: rest => opSnapEvents s op + specSnapInEvents (applyOp s op) rest

/-- The repository aggregate entry written by `update_repo_state`, spelled out. -/
def repo_step (s : SpiralSafeVortex) (a : ATOMOnChain) : RepoState :=
  let st0 := (s.repos a.repo).getD
    { repo := a.repo, atom_count := 0, total_coherence := 0,
      average_coherence := 0, last_snap_in := none }
  { repo := st0.repo,
    atom_count := st0.atom_count + 1,
    total_coherence := st0.total_coherence + a.coherence_score,
    average_coherence :=
      asU8 ((st0.total_coherence + a.coherence_score) / (st0.atom_count + 1)),
    last_snap_in := if s.snap_in_threshold ≤ a.coherence_score
      then some a.timestamp else st0.last_snap_in }

/-- The full state after one accepted submission, with every field spelled out. -/
def record_atom_step (s : SpiralSafeVortex) (a : ATOMOnChain) (ts : String) :
    SpiralSafeVortex where
  atoms := fun t => if t = a.atom_tag then some a else s.atoms t
  repos := fun r => if r = a.repo then some (repo_step s a) else s.repos r
  contributor_atoms := fun c => if c = a.contributor
    then some ((s.contributor_atoms a.contributor).getD [] ++ [a.atom_tag])
    else s.contributor_atoms c
  vortex_state :=
    { total_atoms := s.vortex_state.total_atoms + 1,
      average_coherence := asU8
        ((s.vortex_state.total_atoms * s.vortex_state.average_coherence
          + a.coherence_score) / (s.vortex_state.total_atoms + 1)),
      snap_in_count := s.vortex_state.snap_in_count
        + (if s.snap_in_threshold ≤ a.coherence_score then 1 else 0),
      last_update := ts }
  owner := s.owner
  snap_in_threshold := s.snap_in_threshold

/-- The list of records reached by resolving a contributor's trail through the
record store, as `get_attribution` and `get_contributor_atoms` do. -/
def resolved_atoms (s : SpiralSafeVortex) (c : String) : List ATOMOnChain :=
  ((s.contributor_atoms c).getD []).filterMap fun t => s.atoms t

/-! ### Concrete inputs used by witnesses and counterexamples -/

def atomGood : ATOMOnChain :=
  { atom_tag := "g", repo := "R", coherence_score := 75, phases_passed := [],
    markers := ["WAVE"], contributor := "c", timestamp := "t0",
    commit_hash := "h0", pr_number := none }

def atomBad : ATOMOnChain :=
  { atom_tag := "b", repo := "R", coherence_score := 150, phases_passed := [],
    markers := [], contributor := "c", timestamp := "t0",
    commit_hash := "h0", pr_number := none }

def atomR : ATOMOnChain :=
  { atom_tag := "t1", repo := "R", coherence_score := 50, phases_passed := [],
    markers := ["M1"], contributor := "c", timestamp := "t0",
    commit_hash := "h0", pr_number := none }

def sW : SpiralSafeVortex := record_atom_step (new "o" "0") atomR "1"

def stW : RepoState := repo_step (new "o" "0") atomR

def atom60 : ATOMOnChain :=
  { atom_tag := "t60", repo := "R", coherence_score := 60, phases_passed := [],
    markers := ["M60"], contributor := "d", timestamp := "t0",
    commit_hash := "h0", pr_number := none }

def atom90 : ATOMOnChain :=
  { atom_tag := "t90", repo := "R", coherence_score := 90, phases_passed := [],
    markers := ["M90"], contributor := "d", timestamp := "t0",
    commit_hash := "h0", pr_number := none }

def sAttr : SpiralSafeVortex :=
  record_atom_step (record_atom_step (new "o" "0") atom60 "1") atom90 "2"

def opsC1 : List Op := [Op.record atomR "1" 1, Op.override "o" "R" 99]

def sC1 : SpiralSafeVortex := run (new "o" "0") opsC1

def stC1 : RepoState :=
  { repo := "R", atom_count := 1, total_coherence := 50,
    average_coherence := 99, last_snap_in := none }

def opsW1 : List Op :=
  [Op.record atomR "1" 1, Op.record atomGood "2" 2, Op.setThreshold "o" 80]

def opsW9 : List Op := [Op.record atomR "1" 1, Op.record atomGood "2" 2]

/-! ### Normal form of one accepted submission -/

theorem record_atom_apply_eq (s : SpiralSafeVortex) (a : ATOMOnChain) (ts : String) :
    record_atom_apply s a ts = record_atom_step s a ts := by
  unfold record_atom_apply update_repo_state add_to_contributor_trail
    update_vortex_state record_atom_step repo_step
  by_cases h : s.snap_in_threshold ≤ a.coherence_score <;> simp [h]

theorem record_atom_valid (s : SpiralSafeVortex) (a : ATOMOnChain) (ts : String)
    (height : Nat) (h1 : a.coherence_score ≤ 100) (h2 : a.atom_tag ≠ "") :
    record_atom s a ts height =
      .ok (record_atom_step s a ts, toString height ++ ":" ++ a.atom_tag) := by
  simp [record_atom, Nat.not_lt.mpr h1, h2, record_atom_apply_eq]

theorem record_atom_ok_elim (s s2 : SpiralSafeVortex) (a : ATOMOnChain)
    (ts r : String) (height : Nat)
    (hok : record_atom s a ts height = .ok (s2, r)) :
    a.coherence_score ≤ 100 ∧ a.atom_tag ≠ "" ∧ s2 = record_atom_step s a ts := by
  unfold record_atom at hok
  by_cases h1 : 100 < a.coherence_score
  · simp [h1] at hok
  · by_cases h2 : a.atom_tag = ""
    · simp [h1, h2] at hok
    · refine ⟨Nat.not_lt.mp h1, h2, ?_⟩
      simp [h1, h2, record_atom_apply_eq] at hok
      exact hok.1.symm

theorem record_atom_error_elim (s : SpiralSafeVortex) (a : ATOMOnChain)
    (ts e : String) (height : Nat)
    (herr : record_atom s a ts height = .error e) :
    100 < a.coherence_score ∨ a.atom_tag = "" := by
  by_contra hcon
  push_neg at hcon
  rw [record_atom_valid s a ts height hcon.1 hcon.2] at herr
  exact Except.noConfusion herr

theorem record_atom_error_of_invalid (s : SpiralSafeVortex) (a : ATOMOnChain)
    (ts : String) (height : Nat)
    (h : 100 < a.coherence_score ∨ a.atom_tag = "") :
    ∃ e, record_atom s a ts height = Except.error e := by
  unfold record_atom
  rcases h with h | h
  · exact ⟨"Invalid coherence score", by simp [h]⟩
  · by_cases h1 : 100 < a.coherence_score
    · exact ⟨"Invalid coherence score", by simp [h1]⟩
    · exact ⟨"ATOM tag required", by simp [h1, h]⟩

theorem set_threshold_ok_elim (s s2 : SpiralSafeVortex) (caller : String)
    (v : Nat) (h : set_snap_in_threshold s caller v = Except.ok s2) :
    s2 = { s with snap_in_threshold := v } ∧ caller = s.owner ∧ v ≤ 100 := by
  unfold set_snap_in_threshold at h
  by_cases hc : caller = s.owner
  · by_cases hv : v ≤ 100
    · rw [if_pos hc, if_pos hv] at h
      cases h
      exact ⟨rfl, hc, hv⟩
    · rw [if_pos hc, if_neg hv] at h
      exact Except.noConfusion h
  · rw [if_neg hc] at h
    exact Except.noConfusion h

theorem update_coherence_ok_elim (s s2 : SpiralSafeVortex)
    (caller repo : String) (v : Nat)
    (h : update_coherence s caller repo v = Except.ok s2) :
    caller = s.owner
    ∧ ((s.repos repo = none ∧ s2 = s)
      ∨ (∃ st, s.repos repo = some st
          ∧ s2 = { s with repos := fun r =>
              (if r = repo then some ({ st with average_coherence := v })
               else s.repos r) })) := by
  unfold update_coherence at h
  by_cases hc : caller = s.owner
  · rw [if_pos hc] at h
    cases hrep : s.repos repo with
    | none =>
      rw [hrep] at h
      cases h
      exact ⟨hc, Or.inl ⟨rfl, rfl⟩⟩
    | some st =>
      rw [hrep] at h
      cases h
      exact ⟨hc, Or.inr ⟨st, rfl, rfl⟩⟩
  · rw [if_neg hc] at h
    exact Except.noConfusion h

/-! ### Arithmetic helpers -/

theorem div_le_100_of_le (t c : Nat) (h : t ≤ 100 * c) (hc : 0 < c) :
    t / c ≤ 100 := by
  have h2 : t / c ≤ 100 * c / c := Nat.div_le_div_right h
  rwa [Nat.mul_div_cancel _ hc] at h2

theorem asU8_of_le_100 {x : Nat} (h : x ≤ 100) : asU8 x = x :=
  Nat.mod_eq_of_lt (by omega)

theorem global_quot_le (a n sc : Nat) (ha : a ≤ 100) (hs : sc ≤ 100) :
    (a * n + sc) / (n + 1) ≤ 100 := by
  apply div_le_100_of_le _ _ _ (Nat.succ_pos n)
  nlinarith

/-! ### Claim C2 -/

/-- C2: `record_atom` fails with a validation error exactly when the record's
`coherence_score` exceeds 100 or its `atom_tag` is empty; on such a failure the
whole call is rolled back and the state is unchanged, and on success the record
is stored under its tag. -/
theorem c2_record_atom_validation (s : SpiralSafeVortex) (a : ATOMOnChain)
    (ts : String) (height : Nat) :
    ((∃ e, record_atom s a ts height = Except.error e) ↔
      (100 < a.coherence_score ∨ a.atom_tag = ""))
    ∧ (∀ e, record_atom s a ts height = Except.error e →
        applyOp s (Op.record a ts height) = s)
    ∧ (∀ s2 r, record_atom s a ts height = Except.ok (s2, r) →
        s2.atoms a.atom_tag = some a) := by
  refine ⟨⟨?_, ?_⟩, ?_, ?_⟩
  · rintro ⟨e, he⟩
    exact record_atom_error_elim s a ts e height he
  · exact record_atom_error_of_invalid s a ts height
  · intro e he
    simp [applyOp, he]
  · intro s2 r hok
    obtain ⟨_, _, h2⟩ := record_atom_ok_elim _ _ _ _ _ _ hok
    subst h2
    simp [record_atom_step]

theorem c2_record_atom_validation_witness :
    (∃ e, record_atom (new "o" "0") atomBad "1" 1 = Except.error e)
    ∧ applyOp (new "o" "0") (Op.record atomBad "1" 1) = new "o" "0"
    ∧ (record_atom_step (new "o" "0") atomGood "1").atoms "g" = some atomGood := by
  have hb := c2_record_atom_validation (new "o" "0") atomBad "1" 1
  have hg := c2_record_atom_validation (new "o" "0") atomGood "1" 1
  obtain ⟨e, he⟩ := hb.1.mpr (Or.inl (by decide))
  exact ⟨⟨e, he⟩, hb.2.1 e he,
    hg.2.2 _ _ (record_atom_valid _ _ _ _ (by decide) (by decide))⟩

/-! ### Claim C3 -/

/-- C3: on every accepted record the global aggregate sets the new
`average_coherence` to `(previous_average * previous_total + score) /
(previous_total + 1)` (floor division over the previously rounded average) and
increments `total_atoms` by exactly 1. -/
theorem c3_global_average_formula (s s2 : SpiralSafeVortex) (a : ATOMOnChain)
    (ts r : String) (height : Nat)
    (hok : record_atom s a ts height = Except.ok (s2, r))
    (havg : s.vortex_state.average_coherence ≤ 100) :
    s2.vortex_state.total_atoms = s.vortex_state.total_atoms + 1
    ∧ s2.vortex_state.average_coherence =
        (s.vortex_state.average_coherence * s.vortex_state.total_atoms
          + a.coherence_score) / (s.vortex_state.total_atoms + 1)
    ∧ s2.vortex_state.last_update = ts := by
  obtain ⟨hsc, _, hstep⟩ := record_atom_ok_elim _ _ _ _ _ _ hok
  subst hstep
  refine ⟨rfl, ?_, rfl⟩
  show asU8 ((s.vortex_state.total_atoms * s.vortex_state.average_coherence
    + a.coherence_score) / (s.vortex_state.total_atoms + 1)) = _
  rw [Nat.mul_comm s.vortex_state.total_atoms]
  exact asU8_of_le_100 (global_quot_le _ _ _ havg hsc)

theorem c3_global_average_formula_witness :
    (record_atom_step sW atomGood "2").vortex_state.total_atoms =
        sW.vortex_state.total_atoms + 1
    ∧ (record_atom_step sW atomGood "2").vortex_state.average_coherence =
        (sW.vortex_state.average_coherence * sW.vortex_state.total_atoms
          + atomGood.coherence_score) / (sW.vortex_state.total_atoms + 1) := by
  have h := c3_global_average_formula sW (record_atom_step sW atomGood "2")
    atomGood "2" "2:g" 2 (record_atom_valid _ _ _ _ (by decide) (by decide))
    (by decide)
  exact ⟨h.1, h.2.1⟩

/-! ### Claim C6 -/

/-- C6: two successive accepted submissions with the same tag by the same
contributor leave exactly the second record stored under that tag, while the
contributor trail gains both entries in submission order. -/
theorem c6_resubmission (s s1 s2 : SpiralSafeVortex) (a1 a2 : ATOMOnChain)
    (ts1 ts2 r1 r2 : String) (h1 h2 : Nat)
    (e1 : record_atom s a1 ts1 h1 = Except.ok (s1, r1))
    (e2 : record_atom s1 a2 ts2 h2 = Except.ok (s2, r2))
    (htag : a1.atom_tag = a2.atom_tag) (hcon : a1.contributor = a2.contributor) :
    s2.atoms a2.atom_tag = some a2
    ∧ s2.contributor_atoms a2.contributor =
        some ((s.contributor_atoms a2.contributor).getD []
          ++ [a2.atom_tag, a2.atom_tag]) := by
  obtain ⟨_, _, hs1⟩ := record_atom_ok_elim _ _ _ _ _ _ e1
  obtain ⟨_, _, hs2⟩ := record_atom_ok_elim _ _ _ _ _ _ e2
  subst hs1 hs2
  refine ⟨by simp [record_atom_step], ?_⟩
  simp [record_atom_step, ← htag, ← hcon]

theorem c6_resubmission_witness :
    (record_atom_step sW atomR "2").atoms "t1" = some atomR
    ∧ (record_atom_step sW atomR "2").contributor_atoms "c" =
        some (((new "o" "0").contributor_atoms "c").getD []
          ++ ["t1", "t1"]) := by
  have h := c6_resubmission (new "o" "0") sW (record_atom_step sW atomR "2")
    atomR atomR "1" "2" "1:t1" "2:t1" 1 2
    (record_atom_valid _ _ _ _ (by decide) (by decide))
    (record_atom_valid _ _ _ _ (by decide) (by decide)) rfl rfl
  exact h

/-! ### Claim C4 -/

theorem batch_error_of_invalid (l : List ATOMOnChain) :
    ∀ (s : SpiralSafeVortex) (ts : String) (height : Nat),
    (∃ a ∈ l, 100 < a.coherence_score ∨ a.atom_tag = "") →
    ∃ e, batch_record_atoms s l ts height = Except.error e := by
  induction l with
  | nil =>
    rintro s ts height ⟨a, ha, _⟩
    exact absurd ha (List.not_mem_nil a)
  | cons a rest ih =>
    rintro s ts height ⟨b, hb, hbad⟩
    by_cases hav : 100 < a.coherence_score ∨ a.atom_tag = ""
    · obtain ⟨e, he⟩ := record_atom_error_of_invalid s a ts height hav
      exact ⟨e, by simp [batch_record_atoms, he]⟩
    · push_neg at hav
      have hval := record_atom_valid s a ts height hav.1 hav.2
      have hbrest : b ∈ rest := by
        rcases List.mem_cons.mp hb with hba | hbr
        · subst hba
          rcases hbad with h | h
          · exact absurd h (Nat.not_lt.mpr hav.1)
          · exact absurd h hav.2
        · exact hbr
      obtain ⟨e, he⟩ := ih (record_atom_step s a ts) ts height ⟨b, hbrest, hbad⟩
      exact ⟨e, by simp [batch_record_atoms, hval, he]⟩

/-- C4: a batch containing any invalid record (score above 100 or empty tag)
makes `batch_record_atoms` abort as a whole: the call errors and the host-level
rollback leaves the entire state unchanged, including the records that precede
the first invalid one. -/
theorem c4_batch_all_or_nothing (s : SpiralSafeVortex) (l : List ATOMOnChain)
    (ts : String) (height : Nat)
    (hbad : ∃ a ∈ l, 100 < a.coherence_score ∨ a.atom_tag = "") :
    (∃ e, batch_record_atoms s l ts height = Except.error e)
    ∧ applyOp s (Op.batch l ts height) = s := by
  obtain ⟨e, he⟩ := batch_error_of_invalid l s ts height hbad
  exact ⟨⟨e, he⟩, by simp [applyOp, he]⟩

theorem c4_batch_all_or_nothing_witness :
    (∃ e, batch_record_atoms (new "o" "0") [atomGood, atomBad, atomR] "1" 1 =
      Except.error e)
    ∧ applyOp (new "o" "0") (Op.batch [atomGood, atomBad, atomR] "1" 1) =
      new "o" "0" :=
  c4_batch_all_or_nothing (new "o" "0") [atomGood, atomBad, atomR] "1" 1
    (by decide)

/-! ### Claim C7 -/

/-- C7: the repo-average override fails with an authorization error unless the
caller is the owner; it is a no-op when the repo aggregate is absent; otherwise
it overwrites only that repo's `average_coherence`, leaving the sum, the
count and every other part of the state unchanged, and a subsequent accepted
submission to that repo recomputes the aggregate from the untouched sum and
count, discarding the override. -/
theorem c7_override_frame (s : SpiralSafeVortex) (caller repo : String) (v : Nat) :
    (caller ≠ s.owner → ∃ e, update_coherence s caller repo v = Except.error e)
    ∧ (caller = s.owner → s.repos repo = none →
        update_coherence s caller repo v = Except.ok s)
    ∧ (∀ st, caller = s.owner → s.repos repo = some st →
        ∃ s2, update_coherence s caller repo v = Except.ok s2
          ∧ s2.repos repo = some ({ st with average_coherence := v })
          ∧ (∀ r2, r2 ≠ repo → s2.repos r2 = s.repos r2)
          ∧ s2.atoms = s.atoms
          ∧ s2.contributor_atoms = s.contributor_atoms
          ∧ s2.vortex_state = s.vortex_state
          ∧ s2.owner = s.owner
          ∧ s2.snap_in_threshold = s.snap_in_threshold
          ∧ (∀ a ts hgt s3 r3, a.repo = repo →
              record_atom s2 a ts hgt = Except.ok (s3, r3) →
              s3.repos repo = some (repo_step s a))) := by
  refine ⟨?_, ?_, ?_⟩
  · intro hne
    exact ⟨"Only owner can update coherence directly",
      by simp [update_coherence, hne]⟩
  · intro hc hn
    simp [update_coherence, hc, hn]
  · intro st hc hst
    have hrun : update_coherence s caller repo v =
        Except.ok { s with repos := fun r =>
          (if r = repo then some ({ st with average_coherence := v })
           else s.repos r) } := by
      simp [update_coherence, hc, hst]
    refine ⟨_, hrun, by simp, ?_, rfl, rfl, rfl, rfl, rfl, ?_⟩
    · intro r2 hne
      simp [hne]
    · intro a ts hgt s3 r3 harepo hok
      obtain ⟨_, _, hs3⟩ := record_atom_ok_elim _ _ _ _ _ _ hok
      subst hs3
      simp only [record_atom_step, harepo, if_pos rfl]
      simp [repo_step, harepo, hst]

theorem c7_override_frame_witness :
    ∃ s2, update_coherence sW "o" "R" 99 = Except.ok s2
      ∧ s2.repos "R" = some ({ stW with average_coherence := 99 })
      ∧ s2.vortex_state = sW.vortex_state
      ∧ (∀ a ts hgt s3 r3, a.repo = "R" →
          record_atom s2 a ts hgt = Except.ok (s3, r3) →
          s3.repos "R" = some (repo_step sW a)) := by
  obtain ⟨s2, hrun, hrep, _, _, _, hvx, _, _, hnext⟩ :=
    (c7_override_frame sW "o" "R" 99).2.2 stW (by decide) (by decide)
  exact ⟨s2, hrun, hrep, hvx, hnext⟩

/-! ### Claim C10 -/

/-- C10: the governance override performs no range validation: for every `u8`
value, including values above 100, an owner call on an existing repo aggregate
succeeds and sets that repo's `average_coherence` to exactly that value. -/
theorem c10_override_no_validation (s : SpiralSafeVortex) (caller repo : String)
    (v : Nat) (st : RepoState) (hc : caller = s.owner) (_hv : v ≤ 255)
    (hst : s.repos repo = some st) :
    ∃ s2, update_coherence s caller repo v = Except.ok s2
      ∧ s2.repos repo = some ({ st with average_coherence := v }) := by
  have hrun : update_coherence s caller repo v =
      Except.ok { s with repos := fun r =>
        (if r = repo then some ({ st with average_coherence := v })
         else s.repos r) } := by
    simp [update_coherence, hc, hst]
  exact ⟨_, hrun, by simp⟩

theorem c10_override_no_validation_witness :
    200 ≤ 255 ∧ 100 < 200
    ∧ ∃ s2, update_coherence sW "o" "R" 200 = Except.ok s2
        ∧ s2.repos "R" = some ({ stW with average_coherence := 200 }) := by
  exact ⟨by decide, by decide,
    c10_override_no_validation sW "o" "R" 200 stW (by decide) (by decide)
      (by decide)⟩

/-! ### Claim C8 -/

theorem score_sum_le (l : List ATOMOnChain)
    (h : ∀ a ∈ l, a.coherence_score ≤ 100) :
    (l.map fun a => a.coherence_score).sum ≤ 100 * l.length := by
  induction l with
  | nil => simp
  | cons a rest ih =>
    have ha := h a (List.mem_cons_self a rest)
    have hr := ih fun b hb => h b (List.mem_cons_of_mem a hb)
    simp only [List.map_cons, List.sum_cons, List.length_cons]
    omega

/-- C8: `get_attribution` returns `(0, 0, [])` for a contributor with no
records, and otherwise the count of resolved trail records, the floor of the
sum of their scores divided by that count (recomputed from the resolved
record list), and their flattened markers. -/
theorem c8_attribution (s : SpiralSafeVortex) (c : String)
    (hsc : ∀ a ∈ resolved_atoms s c, a.coherence_score ≤ 100) :
    (resolved_atoms s c = [] → get_attribution s c = (0, 0, []))
    ∧ get_attribution s c =
        ((resolved_atoms s c).length,
         (if 0 < (resolved_atoms s c).length
           then ((resolved_atoms s c).map fun a => a.coherence_score).sum /
             (resolved_atoms s c).length
           else 0),
         ((resolved_atoms s c).map fun a => a.markers).flatten) := by
  have hmain : get_attribution s c =
      ((resolved_atoms s c).length,
       (if 0 < (resolved_atoms s c).length
         then ((resolved_atoms s c).map fun a => a.coherence_score).sum /
           (resolved_atoms s c).length
         else 0),
       ((resolved_atoms s c).map fun a => a.markers).flatten) := by
    unfold get_attribution resolved_atoms
    cases htr : s.contributor_atoms c with
    | none => simp
    | some tags =>
      simp only [Option.getD_some]
      have hq : ∀ hlen : 0 < (tags.filterMap fun t => s.atoms t).length,
          asU8 (((tags.filterMap fun t => s.atoms t).map
              fun a => a.coherence_score).sum /
            (tags.filterMap fun t => s.atoms t).length) =
          ((tags.filterMap fun t => s.atoms t).map
              fun a => a.coherence_score).sum /
            (tags.filterMap fun t => s.atoms t).length := by
        intro hlen
        apply asU8_of_le_100
        apply div_le_100_of_le _ _ _ hlen
        apply score_sum_le
        intro b hb
        apply hsc
        unfold resolved_atoms
        rw [htr]
        exact hb
      by_cases hlen : 0 < (tags.filterMap fun t => s.atoms t).length
      · simp [hlen, hq hlen]
      · simp [hlen]
  refine ⟨?_, hmain⟩
  intro hempty
  rw [hmain, hempty]
  simp

theorem c8_attribution_witness :
    (∀ a ∈ resolved_atoms sAttr "d", a.coherence_score ≤ 100)
    ∧ get_attribution sAttr "nobody" = (0, 0, [])
    ∧ get_attribution sAttr "d" =
        ((resolved_atoms sAttr "d").length,
         (if 0 < (resolved_atoms sAttr "d").length
           then ((resolved_atoms sAttr "d").map fun a => a.coherence_score).sum /
             (resolved_atoms sAttr "d").length
           else 0),
         ((resolved_atoms sAttr "d").map fun a => a.markers).flatten)
    ∧ get_attribution sAttr "d" = (2, 75, ["M60", "M90"]) :=
  ⟨by decide, (c8_attribution sAttr "nobody" (by decide)).1 (by decide),
   (c8_attribution sAttr "d" (by decide)).2, by decide⟩

/-! ### Invariant preservation -/

theorem inv_new (owner ts0 : String) : Inv (new owner ts0) := by
  constructor
  · intro r st hst
    simp [new] at hst
  · simp [new]

theorem inv_repo_step (s : SpiralSafeVortex) (a : ATOMOnChain)
    (hinv : Inv s) (hsc : a.coherence_score ≤ 100) : InvRepo (repo_step s a) := by
  unfold repo_step
  cases hrep : s.repos a.repo with
  | none =>
    refine ⟨by simp, by simpa using hsc, ?_⟩
    have h1 : asU8 a.coherence_score = a.coherence_score := asU8_of_le_100 hsc
    simp [h1]
  | some st0 =>
    obtain ⟨h1, h2, _⟩ := hinv.1 a.repo st0 hrep
    have htot : st0.total_coherence + a.coherence_score ≤
        100 * (st0.atom_count + 1) := by omega
    refine ⟨by simp, by simpa using htot, ?_⟩
    simp [asU8_of_le_100 (div_le_100_of_le _ _ htot (Nat.succ_pos _))]

theorem inv_record_atom_step (s : SpiralSafeVortex) (a : ATOMOnChain)
    (ts : String) (hinv : Inv s) (hsc : a.coherence_score ≤ 100) :
    Inv (record_atom_step s a ts) := by
  constructor
  · intro r st hst
    simp only [record_atom_step] at hst
    by_cases hr : r = a.repo
    · rw [if_pos hr] at hst
      cases hst
      exact inv_repo_step s a hinv hsc
    · rw [if_neg hr] at hst
      exact hinv.1 r st hst
  · show asU8 ((s.vortex_state.total_atoms * s.vortex_state.average_coherence
      + a.coherence_score) / (s.vortex_state.total_atoms + 1)) ≤ 100
    rw [Nat.mul_comm]
    rw [asU8_of_le_100 (global_quot_le _ _ _ hinv.2 hsc)]
    exact global_quot_le _ _ _ hinv.2 hsc

theorem inv_batch_go (l : List ATOMOnChain) :
    ∀ (s s2 : SpiralSafeVortex) (ts : String) (height : Nat)
      (rs : List String), Inv s →
      batch_record_atoms s l ts height = Except.ok (s2, rs) → Inv s2 := by
  induction l with
  | nil =>
    intro s s2 ts height rs hinv hok
    simp only [batch_record_atoms, Except.ok.injEq, Prod.mk.injEq] at hok
    rw [← hok.1]
    exact hinv
  | cons a rest ih =>
    intro s s2 ts height rs hinv hok
    simp only [batch_record_atoms] at hok
    cases hra : record_atom s a ts height with
    | error e => simp [hra] at hok
    | ok p =>
      obtain ⟨s1, r1⟩ := p
      obtain ⟨hsc, _, hstep⟩ := record_atom_ok_elim _ _ _ _ _ _ hra
      have hinv1 : Inv s1 := by
        rw [hstep]
        exact inv_record_atom_step s a ts hinv hsc
      cases hrest : batch_record_atoms s1 rest ts height with
      | error e => simp [hra, hrest] at hok
      | ok q =>
        obtain ⟨s3, rs3⟩ := q
        simp only [hra, hrest, Except.ok.injEq, Prod.mk.injEq] at hok
        rw [← hok.1]
        exact ih s1 s3 ts height rs3 hinv1 hrest

theorem inv_applyOp (s : SpiralSafeVortex) (op : Op) (hinv : Inv s)
    (hop : op.isOverride = false) : Inv (applyOp s op) := by
  cases op with
  | record a ts h =>
    cases hra : record_atom s a ts h with
    | error e => simpa [applyOp, hra] using hinv
    | ok p =>
      obtain ⟨s1, r1⟩ := p
      obtain ⟨hsc, _, hstep⟩ := record_atom_ok_elim _ _ _ _ _ _ hra
      have hinv1 : Inv s1 := by
        rw [hstep]
        exact inv_record_atom_step s a ts hinv hsc
      simpa [applyOp, hra] using hinv1
  | batch l ts h =>
    cases hb : batch_record_atoms s l ts h with
    | error e => simpa [applyOp, hb] using hinv
    | ok p =>
      obtain ⟨s1, rs1⟩ := p
      simpa [applyOp, hb] using inv_batch_go l s s1 ts h rs1 hinv hb
  | setThreshold caller v =>
    cases hs : set_snap_in_threshold s caller v with
    | error e => simpa [applyOp, hs] using hinv
    | ok s2 =>
      obtain ⟨hs2, -, -⟩ := set_threshold_ok_elim s s2 caller v hs
      subst hs2
      simpa [applyOp, hs] using (⟨hinv.1, hinv.2⟩ : Inv _)
  | override caller repo v => simp [Op.isOverride] at hop

theorem inv_run (ops : List Op) :
    ∀ s : SpiralSafeVortex, Inv s → (∀ op ∈ ops, op.isOverride = false) →
    Inv (run s ops) := by
  induction ops with
  | nil => intro s hinv _; exact hinv
  | cons op rest ih =>
    intro s hinv hno
    exact ih (applyOp s op)
      (inv_applyOp s op hinv (hno op (List.mem_cons_self op rest)))
      (fun o ho => hno o (List.mem_cons_of_mem op ho))

/-! ### Absence of repository aggregates -/

theorem repos_record_step_other (s : SpiralSafeVortex) (a : ATOMOnChain)
    (ts : String) (r : String) (hne : a.repo ≠ r) :
    (record_atom_step s a ts).repos r = s.repos r := by
  simp only [record_atom_step]
  rw [if_neg (fun h => hne h.symm)]

theorem repos_none_batch_go (l : List ATOMOnChain) :
    ∀ (s s2 : SpiralSafeVortex) (ts : String) (height : Nat)
      (rs : List String) (r : String), s.repos r = none →
      (∀ a ∈ l, a.repo ≠ r) →
      batch_record_atoms s l ts height = Except.ok (s2, rs) →
      s2.repos r = none := by
  induction l with
  | nil =>
    intro s s2 ts height rs r hn _ hok
    simp only [batch_record_atoms, Except.ok.injEq, Prod.mk.injEq] at hok
    rw [← hok.1]
    exact hn
  | cons a rest ih =>
    intro s s2 ts height rs r hn hall hok
    simp only [batch_record_atoms] at hok
    cases hra : record_atom s a ts height with
    | error e => simp [hra] at hok
    | ok p =>
      obtain ⟨s1, r1⟩ := p
      obtain ⟨_, _, hstep⟩ := record_atom_ok_elim _ _ _ _ _ _ hra
      have hn1 : s1.repos r = none := by
        rw [hstep, repos_record_step_other s a ts r
          (hall a (List.mem_cons_self a rest))]
        exact hn
      cases hrest : batch_record_atoms s1 rest ts height with
      | error e => simp [hra, hrest] at hok
      | ok q =>
        obtain ⟨s3, rs3⟩ := q
        simp only [hra, hrest, Except.ok.injEq, Prod.mk.injEq] at hok
        rw [← hok.1]
        exact ih s1 s3 ts height rs3 r hn1
          (fun b hb => hall b (List.mem_cons_of_mem a hb)) hrest

theorem repos_none_applyOp (s : SpiralSafeVortex) (op : Op) (r : String)
    (hn : s.repos r = none) (hop : op.recordsRepo r = false) :
    (applyOp s op).repos r = none := by
  cases op with
  | record a ts h =>
    have hne : a.repo ≠ r := by
      simpa [Op.recordsRepo] using hop
    cases hra : record_atom s a ts h with
    | error e => simpa [applyOp, hra] using hn
    | ok p =>
      obtain ⟨s1, r1⟩ := p
      obtain ⟨_, _, hstep⟩ := record_atom_ok_elim _ _ _ _ _ _ hra
      have : s1.repos r = none := by
        rw [hstep, repos_record_step_other s a ts r hne]
        exact hn
      simpa [applyOp, hra] using this
  | batch l ts h =>
    have hall : ∀ a ∈ l, a.repo ≠ r := by
      intro a ha
      simp only [Op.recordsRepo, List.any_eq_false] at hop
      simpa using hop a ha
    cases hb : batch_record_atoms s l ts h with
    | error e => simpa [applyOp, hb] using hn
    | ok p =>
      obtain ⟨s1, rs1⟩ := p
      simpa [applyOp, hb] using
        repos_none_batch_go l s s1 ts h rs1 r hn hall hb
  | setThreshold caller v =>
    cases hs : set_snap_in_threshold s caller v with
    | error e => simpa [applyOp, hs] using hn
    | ok s2 =>
      obtain ⟨hs2, -, -⟩ := set_threshold_ok_elim s s2 caller v hs
      subst hs2
      simpa [applyOp, hs] using hn
  | override caller repo v =>
    cases hu : update_coherence s caller repo v with
    | error e => simpa [applyOp, hu] using hn
    | ok s2 =>
      obtain ⟨-, hcase⟩ := update_coherence_ok_elim s s2 caller repo v hu
      rcases hcase with ⟨-, hs2⟩ | ⟨st, hrep, hs2⟩
      · subst hs2
        simpa [applyOp, hu] using hn
      · have hrne : r ≠ repo := by
          intro he
          rw [he, hrep] at hn
          exact Option.noConfusion hn
        subst hs2
        simpa [applyOp, hu, hrne] using hn

theorem repos_none_run (ops : List Op) :
    ∀ (s : SpiralSafeVortex) (r : String), s.repos r = none →
    (∀ op ∈ ops, op.recordsRepo r = false) →
    (run s ops).repos r = none := by
  induction ops with
  | nil => intro s r hn _; exact hn
  | cons op rest ih =>
    intro s r hn hall
    exact ih (applyOp s op) r
      (repos_none_applyOp s op r hn (hall op (List.mem_cons_self op rest)))
      (fun o ho => hall o (List.mem_cons_of_mem op ho))

/-! ### Claim C1 -/

/-- C1 counterexample: a reachable state (one record with score 50 for repo
`R`, then an owner override of that repo's average to 99) whose repository
aggregate exists, has `record_count > 0`, and whose stored average differs
from `floor(score_sum / record_count)`. -/
theorem c1_counterexample :
    Reachable sC1
    ∧ sC1.repos "R" = some stC1
    ∧ 0 < stC1.atom_count
    ∧ stC1.average_coherence ≠ stC1.total_coherence / stC1.atom_count :=
  ⟨⟨"o", "0", opsC1, rfl⟩, by decide, by decide, by decide⟩

/-- C1 (amended): in every state reachable without any repo-average override,
every existing repository aggregate has `record_count > 0` and its average
equals `floor(score_sum / record_count)` computed from the stored exact sum
and count; and a repo's aggregate is absent as long as no record for that repo
has been submitted. -/
theorem c1_repo_average_invariant (owner ts0 : String) (ops : List Op)
    (hno : ∀ op ∈ ops, op.isOverride = false) :
    (∀ r st, (run (new owner ts0) ops).repos r = some st →
      0 < st.atom_count
      ∧ st.average_coherence = st.total_coherence / st.atom_count)
    ∧ (∀ r, (∀ op ∈ ops, op.recordsRepo r = false) →
        (run (new owner ts0) ops).repos r = none) := by
  have hinv := inv_run ops (new owner ts0) (inv_new owner ts0) hno
  constructor
  · intro r st hst
    obtain ⟨h1, _, h3⟩ := hinv.1 r st hst
    exact ⟨h1, h3⟩
  · intro r hr
    exact repos_none_run ops (new owner ts0) r (by simp [new]) hr

theorem c1_repo_average_invariant_witness :
    (∀ r st, (run (new "o" "0") opsW1).repos r = some st →
      0 < st.atom_count
      ∧ st.average_coherence = st.total_coherence / st.atom_count)
    ∧ (run (new "o" "0") opsW1).repos "Z" = none :=
  ⟨(c1_repo_average_invariant "o" "0" opsW1 (by decide)).1,
   (c1_repo_average_invariant "o" "0" opsW1 (by decide)).2 "Z" (by decide)⟩

/-! ### Claim C9 -/

/-- C9: along every sequence of record submissions from the initial state (no
governance override), the global `average_coherence` and every repository
`average_coherence` stay in 0–100, and at every accepted submission the stored
(`as u8`-cast) averages equal the uncast 64-bit division results — the
narrowing casts never truncate. -/
theorem c9_casts_never_truncate (owner ts0 : String) (ops : List Op)
    (s : SpiralSafeVortex) (hrec : ∀ op ∈ ops, op.isRecord = true)
    (hs : s = run (new owner ts0) ops) :
    s.vortex_state.average_coherence ≤ 100
    ∧ (∀ r st, s.repos r = some st →
        st.average_coherence ≤ 100
        ∧ st.average_coherence = st.total_coherence / st.atom_count)
    ∧ (∀ a ts hgt s2 r2, record_atom s a ts hgt = Except.ok (s2, r2) →
        s2.vortex_state.average_coherence =
          (s.vortex_state.total_atoms * s.vortex_state.average_coherence
            + a.coherence_score) / (s.vortex_state.total_atoms + 1)
        ∧ (∀ st2, s2.repos a.repo = some st2 →
            st2.average_coherence = st2.total_coherence / st2.atom_count)) := by
  have hno : ∀ op ∈ ops, op.isOverride = false := by
    intro op hop
    have := hrec op hop
    cases op <;> simp_all [Op.isRecord, Op.isOverride]
  have hinv : Inv s := by
    rw [hs]
    exact inv_run ops (new owner ts0) (inv_new owner ts0) hno
  refine ⟨hinv.2, ?_, ?_⟩
  · intro r st hst
    obtain ⟨-, h2, h3⟩ := hinv.1 r st hst
    refine ⟨?_, h3⟩
    rw [h3]
    rcases Nat.eq_zero_or_pos st.atom_count with hz | hp
    · simp [hz]
    · exact div_le_100_of_le _ _ h2 hp
  · intro a ts hgt s2 r2 hok
    obtain ⟨hsc, -, hstep⟩ := record_atom_ok_elim _ _ _ _ _ _ hok
    have hinv2 : Inv s2 := by
      rw [hstep]
      exact inv_record_atom_step s a ts hinv hsc
    constructor
    · rw [hstep]
      show asU8 ((s.vortex_state.total_atoms * s.vortex_state.average_coherence
        + a.coherence_score) / (s.vortex_state.total_atoms + 1)) = _
      rw [Nat.mul_comm s.vortex_state.total_atoms]
      exact asU8_of_le_100 (global_quot_le _ _ _ hinv.2 hsc)
    · intro st2 hst2
      exact (hinv2.1 a.repo st2 hst2).2.2

theorem c9_casts_never_truncate_witness :
    (run (new "o" "0") opsW9).vortex_state.average_coherence ≤ 100
    ∧ (∀ r st, (run (new "o" "0") opsW9).repos r = some st →
        st.average_coherence ≤ 100
        ∧ st.average_coherence = st.total_coherence / st.atom_count) := by
  have h := c9_casts_never_truncate "o" "0" opsW9 (run (new "o" "0") opsW9)
    (by decide) rfl
  exact ⟨h.1, h.2.1⟩

/-! ### Claim C5 -/

theorem record_atom_step_snap (s : SpiralSafeVortex) (a : ATOMOnChain)
    (ts : String) :
    (record_atom_step s a ts).vortex_state.snap_in_count =
      s.vortex_state.snap_in_count
        + (if s.snap_in_threshold ≤ a.coherence_score then 1 else 0) := rfl

theorem record_atom_step_threshold (s : SpiralSafeVortex) (a : ATOMOnChain)
    (ts : String) :
    (record_atom_step s a ts).snap_in_threshold = s.snap_in_threshold := rfl

theorem batch_go_snap (l : List ATOMOnChain) :
    ∀ (s s2 : SpiralSafeVortex) (ts : String) (height : Nat) (rs : List String),
    batch_record_atoms s l ts height = Except.ok (s2, rs) →
    s2.vortex_state.snap_in_count = s.vortex_state.snap_in_count
      + l.countP (fun a => decide (s.snap_in_threshold ≤ a.coherence_score))
    ∧ s2.snap_in_threshold = s.snap_in_threshold := by
  induction l with
  | nil =>
    intro s s2 ts height rs hok
    simp only [batch_record_atoms, Except.ok.injEq, Prod.mk.injEq] at hok
    rw [← hok.1]
    simp
  | cons a rest ih =>
    intro s s2 ts height rs hok
    simp only [batch_record_atoms] at hok
    cases hra : record_atom s a ts height with
    | error e => simp [hra] at hok
    | ok p =>
      obtain ⟨s1, r1⟩ := p
      obtain ⟨-, -, hstep⟩ := record_atom_ok_elim _ _ _ _ _ _ hra
      cases hrest : batch_record_atoms s1 rest ts height with
      | error e => simp [hra, hrest] at hok
      | ok q =>
        obtain ⟨s3, rs3⟩ := q
        simp only [hra, hrest, Except.ok.injEq, Prod.mk.injEq] at hok
        obtain ⟨hrec, hthr⟩ := ih s1 s3 ts height rs3 hrest
        subst hstep
        rw [← hok.1]
        constructor
        · rw [hrec, record_atom_step_snap, record_atom_step_threshold,
            List.countP_cons]
          by_cases hsnap : s.snap_in_threshold ≤ a.coherence_score
          · simp [hsnap]
            omega
          · simp [hsnap]
        · rw [hthr, record_atom_step_threshold]

theorem applyOp_snap (s : SpiralSafeVortex) (op : Op) :
    (applyOp s op).vortex_state.snap_in_count =
      s.vortex_state.snap_in_count + opSnapEvents s op := by
  cases op with
  | record a ts h =>
    cases hra : record_atom s a ts h with
    | error e => simp [applyOp, opSnapEvents, hra]
    | ok p =>
      obtain ⟨s1, r1⟩ := p
      obtain ⟨-, -, hstep⟩ := record_atom_ok_elim _ _ _ _ _ _ hra
      subst hstep
      simp [applyOp, opSnapEvents, hra, record_atom_step_snap]
  | batch l ts h =>
    cases hb : batch_record_atoms s l ts h with
    | error e => simp [applyOp, opSnapEvents, hb]
    | ok p =>
      obtain ⟨s1, rs1⟩ := p
      obtain ⟨hrec, -⟩ := batch_go_snap l s s1 ts h rs1 hb
      simp [applyOp, opSnapEvents, hb, hrec]
  | setThreshold caller v =>
    cases hs : set_snap_in_threshold s caller v with
    | error e => simp [applyOp, opSnapEvents, hs]
    | ok s2 =>
      obtain ⟨hs2, -, -⟩ := set_threshold_ok_elim s s2 caller v hs
      subst hs2
      simp [applyOp, opSnapEvents, hs]
  | override caller repo v =>
    cases hu : update_coherence s caller repo v with
    | error e => simp [applyOp, opSnapEvents, hu]
    | ok s2 =>
      obtain ⟨-, hcase⟩ := update_coherence_ok_elim s s2 caller repo v hu
      rcases hcase with ⟨-, hs2⟩ | ⟨st, -, hs2⟩ <;> subst hs2 <;>
        simp [applyOp, opSnapEvents, hu]

theorem run_snap (ops : List Op) :
    ∀ s : SpiralSafeVortex,
    (run s ops).vortex_state.snap_in_count =
      s.vortex_state.snap_in_count + specSnapInEvents s ops := by
  induction ops with
  | nil => intro s; simp [run, specSnapInEvents]
  | cons op rest ih =>
    intro s
    simp only [run, specSnapInEvents]
    rw [ih (applyOp s op), applyOp_snap]
    omega

/-- C5: `snap_in_count` equals the number of accepted record submissions so
far whose score met the snap-in threshold in effect at the moment of that
submission; it never decreases across any operation, and each accepted
submission increments it by exactly 1 when `score ≥ threshold` and leaves it
unchanged otherwise. -/
theorem c5_snap_in_count (owner ts0 : String) (ops : List Op) :
    (run (new owner ts0) ops).vortex_state.snap_in_count =
      specSnapInEvents (new owner ts0) ops
    ∧ (∀ (s : SpiralSafeVortex) (op : Op),
        s.vortex_state.snap_in_count ≤
          (applyOp s op).vortex_state.snap_in_count)
    ∧ (∀ (s s2 : SpiralSafeVortex) (a : ATOMOnChain) (ts r2 : String)
        (hgt : Nat), record_atom s a ts hgt = Except.ok (s2, r2) →
        s2.vortex_state.snap_in_count = s.vortex_state.snap_in_count
          + (if s.snap_in_threshold ≤ a.coherence_score then 1 else 0)) := by
  refine ⟨?_, ?_, ?_⟩
  · rw [run_snap]
    simp [new]
  · intro s op
    rw [applyOp_snap]
    exact Nat.le_add_right _ _
  · intro s s2 a ts r2 hgt hok
    obtain ⟨-, -, hstep⟩ := record_atom_ok_elim _ _ _ _ _ _ hok
    rw [hstep, record_atom_step_snap]

theorem c5_snap_in_count_witness :
    (run (new "o" "0") opsW9).vortex_state.snap_in_count =
      specSnapInEvents (new "o" "0") opsW9
    ∧ (run (new "o" "0") opsW9).vortex_state.snap_in_count = 1 :=
  ⟨(c5_snap_in_count "o" "0" opsW9).1, by decide⟩

end SpiralSafe
